import Mathlib

/-!
Verification development for the Polymarket up/down trading bot.

Shallow embedding of the risk-managed order lifecycle engine:
`state_store.py` (JsonStateStore), `order_manager.py` (OrderManager),
`strategy_updown_lag_arb.py` (UpDownLagArbStrategy) and
`binance_client.py` (BinanceClient).  Monetary amounts, prices and
timestamps are modelled as exact rationals; the real-valued volatility
computation of `binance_client.py` is modelled over the reals.
External collaborators (the order executor, the Binance kline fetch, the
CLOB best-ask query) are oracles passed in as functions; a `none`/failure
value of such an oracle models the Python call raising an exception.
-/

/-- Association-list lookup, modelling a Python `dict.get`.  Later
`aset` keeps at most one binding per key, as a dict does. -/
def alookup {α β : Type} [DecidableEq α] (k : α) : List (α × β) → Option β
  | [] => none
  | (k', v) :: rest => if k' = k then some v else alookup k rest

/-- Association-list insert/replace, modelling Python `dict[k] = v`. -/
def aset {α β : Type} [DecidableEq α] (k : α) (v : β) : List (α × β) → List (α × β)
  | [] => [(k, v)]
  | (k', v') :: rest => if k' = k then (k, v) :: rest else (k', v') :: aset k v rest

/-- Run mode of the bot: `AppConfig.mode` is the string `"paper"` or `"live"`. -/
inductive Mode where
  | paper : Mode
  | live : Mode
deriving DecidableEq

/-- The fields of `config.StrategyConfig` the embedded code reads. -/
structure StrategyConfig where
  min_abs_return_pct : ℚ
  max_entry_price : ℚ
  fee_estimate : ℚ
  min_edge : ℚ
  min_time_to_end_minutes : ℚ
  max_time_to_end_minutes : ℚ
  volatility_mult : ℚ
  trade_cooldown_seconds : ℚ
  max_notional_per_trade : ℚ
  max_notional_per_market : ℚ
  max_total_notional : ℚ
  max_child_notional : ℚ

/-- The fields of `config.AppConfig` that the order manager reads, plus the
values the optional `FeeService` collaborator would return:
`trade_fee_rate = some r` models a wired `fee_service` whose
`get_trade_fee_rate()` returns `r` (`none` models `fee_service is None`),
and `settlement_fee_usd` models `fee_service.get_settlement_fee_usd()`
(`poll_status` uses `0.0` when no fee service is wired, which is the value
this field then carries).  `max_age_seconds` is `JsonStateStore.max_age_seconds`. -/
structure AppConfig where
  mode : Mode
  strategy : StrategyConfig
  max_total_exposure_fraction : ℚ
  paper_max_fraction_per_trade : ℚ
  paper_max_open_orders : ℕ
  paper_min_notional : ℚ
  live_roll_threshold_usd : ℚ
  live_max_notional_below_threshold : ℚ
  live_max_fraction_above_threshold : ℚ
  live_min_notional : ℚ
  trade_fee_rate : Option ℚ
  settlement_fee_usd : ℚ
  max_age_seconds : ℚ

/-- `order_executor.OrderRequest`.  `start_time`/`end_time` are UTC
timestamps in seconds. -/
structure OrderRequest where
  market_slug : String
  asset_symbol : String
  outcome : String
  token_id : String
  price : ℚ
  size : ℚ
  notional : ℚ
  start_time : ℚ
  end_time : ℚ
  order_type : String

/-- The outcome fields of `order_executor.OrderResult` produced by the
executor collaborator (success flag, message, optional exchange order id). -/
structure ExecResp where
  success : Bool
  message : String
  order_id : Option String

/-- `order_executor.OrderResult`: an `ExecResp` together with the request
it answered. -/
structure OrderResult where
  success : Bool
  message : String
  request : OrderRequest
  order_id : Option String

/-- Builds the `OrderResult` for a submitted child from the executor's
response. -/
def mkResult (c : OrderRequest) (e : ExecResp) : OrderResult :=
  ⟨e.success, e.message, c, e.order_id⟩

/-- One persisted order record (a value of the `orders` dict of
`JsonStateStore.state`).  `Option` fields model dict keys that may be
absent (missing `updated_at`, empty `start_time`/`end_time` strings).
Defaults mirror the `or`-defaults the Python readers apply to missing
keys. -/
structure OrderRecord where
  market_slug : String := ""
  outcome : String := ""
  token_id : String := ""
  asset_symbol : String := ""
  start_time : Option ℚ := none
  end_time : Option ℚ := none
  status : String := ""
  created_at : ℚ := 0
  updated_at : Option ℚ := none
  order_ids : List String := []
  total_notional : ℚ := 0
  total_size : ℚ := 0
  fee_paid : ℚ := 0
  last_error : String := ""
  result : String := ""
  settled_at : Option ℚ := none

/-- Logical order key: `OrderManager._order_key` builds the string
`f"{market_slug}|{outcome}|{end_time_iso}"`; since the ISO rendering of the
expiry is injective we model the key as the triple itself. -/
abbrev OrderKey := String × String × ℚ

/-- `OrderManager._order_key`. -/
def order_key (o : OrderRequest) : OrderKey := (o.market_slug, o.outcome, o.end_time)

/-- The rolling `paper` stats object of `JsonStateStore.state`. -/
structure PaperStats where
  cash : ℚ := 0
  realized_pnl : ℚ := 0
  fees_paid : ℚ := 0
  trades : ℕ := 0
  wins : ℕ := 0
  losses : ℕ := 0

/-- The mutable order-manager state the embedded methods read and write:
the persisted `orders` dict and `paper` stats, the live-cash estimate, the
cached account values, and the position snapshot's `token_sizes`.
The network refreshes (`refresh_live_cash_if_needed`,
`refresh_positions_if_needed`) only re-sync `live_cash_usd`,
`live_total_value_usd`, `live_positions_value_usd` and `token_sizes` from
remote services; a `ManagerState` is taken to be the state after those
syncs. -/
structure ManagerState where
  orders : List (OrderKey × OrderRecord)
  paper : PaperStats
  live_cash_usd : ℚ
  live_total_value_usd : Option ℚ
  live_positions_value_usd : Option ℚ
  positions_total_value_usd : ℚ
  token_sizes : List (String × ℚ)

/-- `float(record.get("updated_at") or 0)`: the value cleanup reads for a
record's `updated_at` (0 when the key is missing). -/
def updatedAtVal (r : OrderRecord) : ℚ := r.updated_at.getD 0

/-- `JsonStateStore.cleanup`'s per-record eviction test:
`if updated_at and now - updated_at > self.max_age_seconds`. -/
def evictable (now maxAge : ℚ) (r : OrderRecord) : Bool :=
  decide (updatedAtVal r ≠ 0 ∧ maxAge < now - updatedAtVal r)

/-- `JsonStateStore.cleanup`: drop every evictable record, keep the rest. -/
def cleanupOrders (now maxAge : ℚ) (orders : List (OrderKey × OrderRecord)) :
    List (OrderKey × OrderRecord) :=
  orders.filter fun p => ! evictable now maxAge p.2

/-- `OrderManager._position_exposure`: held size of a token from the
position snapshot (`0.0` when absent). -/
def position_exposure (s : ManagerState) (token : String) : ℚ :=
  (alookup token s.token_sizes).getD 0

/-- `OrderManager.should_skip`: skip when a record exists for the key with
status `submitted`, `filled` or `settled`. -/
def should_skip (s : ManagerState) (o : OrderRequest) : Bool :=
  match alookup (order_key o) s.orders with
  | none => false
  | some st => decide (st.status = "submitted" ∨ st.status = "filled" ∨ st.status = "settled")

/-- Builds a child order carrying the parent's fields with the given
notional and `size = notional / price` (the construction used both inside
`_plan_children` and by the clamping resize in `submit_with_risk`). -/
def child_with_notional (o : OrderRequest) (notional : ℚ) : OrderRequest :=
  { o with size := notional / o.price, notional := notional }

/-- The `while remaining > 0` loop of `OrderManager._plan_children`,
with explicit fuel; `plan_fuel` supplies enough fuel for the loop to run
to completion (see `plan_children_loop_fuel_irrel`). -/
def plan_children_loop (maxChild : ℚ) (o : OrderRequest) : ℕ → ℚ → List OrderRequest
  | 0, _ => []
  | fuel + 1, remaining =>
    if 0 < remaining then
      child_with_notional o (min maxChild remaining) ::
        plan_children_loop maxChild o fuel (remaining - min maxChild remaining)
    else []

/-- Number of iterations `_plan_children`'s loop performs: `⌈notional / maxChild⌉`. -/
def plan_fuel (notional maxChild : ℚ) : ℕ := ⌈notional / maxChild⌉.toNat

/-- `OrderManager._plan_children`. -/
def plan_children (cfg : AppConfig) (o : OrderRequest) : List OrderRequest :=
  let maxChild := cfg.strategy.max_child_notional
  if maxChild ≤ 0 ∨ o.notional ≤ maxChild then [o]
  else plan_children_loop maxChild o (plan_fuel o.notional maxChild) o.notional

/-- `OrderManager._open_orders_notional`: total `total_notional` over the
records whose status is in the given list. -/
def open_orders_notional (s : ManagerState) (statuses : List String) : ℚ :=
  ((s.orders.filter fun p => decide (p.2.status ∈ statuses)).map
    fun p => p.2.total_notional).sum

/-- `OrderManager._paper_open_orders_count`: number of `submitted` records. -/
def paper_open_orders_count (s : ManagerState) : ℕ :=
  (s.orders.filter fun p => decide (p.2.status = "submitted")).length

/-- `OrderManager._live_open_orders_notional`: `submitted` records always
count; `filled` records count unless the position snapshot already shows a
positive held size for their token. -/
def live_open_orders_notional (s : ManagerState) : ℚ :=
  (s.orders.map fun p =>
    if p.2.status = "submitted" then p.2.total_notional
    else if p.2.status = "filled" then
      if p.2.token_id ≠ "" ∧ 0 < position_exposure s p.2.token_id then 0
      else p.2.total_notional
    else 0).sum

/-- `OrderManager._max_total_exposure_usd`. -/
def max_total_exposure_usd (cfg : AppConfig) (s : ManagerState) : ℚ :=
  let frac := cfg.max_total_exposure_fraction
  if frac ≤ 0 then 0
  else
    let threshold := cfg.live_roll_threshold_usd
    let below_cap := cfg.live_max_notional_below_threshold
    match cfg.mode with
    | .paper =>
      let equity := s.paper.cash + open_orders_notional s ["submitted", "filled"]
      if 0 < threshold ∧ equity < threshold then max below_cap 0
      else max (equity * frac) 0
    | .live =>
      match s.live_total_value_usd with
      | some tv =>
        if 0 < threshold ∧ tv < threshold then max below_cap 0
        else max (tv * frac) 0
      | none =>
        let pv := s.live_positions_value_usd.getD s.positions_total_value_usd
        let equity := s.live_cash_usd + pv + live_open_orders_notional s
        if 0 < threshold ∧ equity < threshold then max below_cap 0
        else max (equity * frac) 0

/-- `OrderManager._current_total_exposure_usd`. -/
def current_total_exposure_usd (cfg : AppConfig) (s : ManagerState) : ℚ :=
  match cfg.mode with
  | .paper => max (open_orders_notional s ["submitted", "filled"]) 0
  | .live =>
    let pv := s.live_positions_value_usd.getD s.positions_total_value_usd
    max (pv + live_open_orders_notional s) 0

/-- `OrderManager._remaining_total_exposure_usd`: headroom left under the
portfolio exposure cap. -/
def remaining_total_exposure_usd (cfg : AppConfig) (s : ManagerState) : ℚ :=
  max (max_total_exposure_usd cfg s - current_total_exposure_usd cfg s) 0

/-- `OrderManager._live_max_notional`: cash-tiered per-order cap in live
mode. -/
def live_max_notional (cfg : AppConfig) (s : ManagerState) : ℚ :=
  if s.live_cash_usd ≤ 0 then 0
  else if s.live_cash_usd < cfg.live_roll_threshold_usd then
    cfg.live_max_notional_below_threshold
  else s.live_cash_usd * cfg.live_max_fraction_above_threshold

/-- The effective trade-fee rate: `fee_service.get_trade_fee_rate()` when a
fee service is wired, else `cfg.strategy.fee_estimate`. -/
def trade_fee_rate (cfg : AppConfig) : ℚ :=
  match cfg.trade_fee_rate with
  | some r => r
  | none => cfg.strategy.fee_estimate

/-- `OrderManager._paper_apply_buy`: debit notional plus fee from paper
cash, accumulate fees and the trade count; returns the fee charged. -/
def paper_apply_buy (cfg : AppConfig) (p : PaperStats) (notional : ℚ) : PaperStats × ℚ :=
  let fee := trade_fee_rate cfg * notional
  ({ p with cash := p.cash - (notional + fee),
            fees_paid := p.fees_paid + fee,
            trades := p.trades + 1 }, fee)

/-- `OrderManager._paper_apply_settlement`. -/
def paper_apply_settlement (p : PaperStats) (pnl payout : ℚ) (win : Bool)
    (settlement_fee : ℚ) : PaperStats :=
  { p with cash := p.cash + payout - settlement_fee,
           realized_pnl := p.realized_pnl + pnl,
           fees_paid := p.fees_paid + settlement_fee,
           wins := if win then p.wins + 1 else p.wins,
           losses := if win then p.losses else p.losses + 1 }

/-- Outcome of one iteration's pre-submission gates in
`submit_with_risk`'s child loop: `skip` models `continue` (child already
expired), `stop` models `break` (headroom / capital / count floors hit),
`go c` means child `c` (possibly clamped and resized) is submitted. -/
inductive Gate where
  | skip : Gate
  | stop : Gate
  | go : OrderRequest → Gate

/-- The gates of one iteration of `submit_with_risk`'s child loop (lines
651–707 of `order_manager.py`): expiry skip, exposure-headroom stop, then
the mode-specific capital clamp with the `1e-9` resize tolerance. -/
def submit_gate (cfg : AppConfig) (s : ManagerState) (now : ℚ) (child : OrderRequest) : Gate :=
  if child.end_time ≤ now then .skip
  else
    let exposure_remaining := remaining_total_exposure_usd cfg s
    if exposure_remaining ≤ 0 then .stop
    else
      match cfg.mode with
      | .paper =>
        if cfg.paper_max_open_orders ≤ paper_open_orders_count s then .stop
        else
          let cash := s.paper.cash
          if cash ≤ 0 then .stop
          else
            let fee_rate := cfg.strategy.fee_estimate
            let spendable := if 0 ≤ fee_rate then cash / (1 + fee_rate) else cash
            let max_by_fraction := spendable * cfg.paper_max_fraction_per_trade
            let notional :=
              min (min (min child.notional spendable) max_by_fraction) exposure_remaining
            if notional < cfg.paper_min_notional then .stop
            else if 1 / 1000000000 < |notional - child.notional| then
              .go (child_with_notional child notional)
            else .go child
      | .live =>
        let cap := live_max_notional cfg s
        let cash := s.live_cash_usd
        let fee_rate := trade_fee_rate cfg
        let spendable := if 0 ≤ fee_rate then cash / (1 + fee_rate) else cash
        if 0 < cap then
          let notional := min (min (min child.notional cap) spendable) exposure_remaining
          if notional < cfg.live_min_notional then .stop
          else if 1 / 1000000000 < |notional - child.notional| then
            .go (child_with_notional child notional)
          else .go child
        else .go child

/-- `if resp.order_id:` — Python appends the id only when it is truthy
(neither `None` nor the empty string). -/
def oidList : Option String → List String
  | none => []
  | some oid => if oid = "" then [] else [oid]

/-- The post-submission bookkeeping of one iteration of
`submit_with_risk`'s child loop (lines 724–811 of `order_manager.py`): the
live-cash debit on success, then the read-merge-upsert of the order record
(totals incremented by the child, status `submitted` on success / `error`
with the message on failure, `updated_at` stamped by `upsert_order`), and
the paper buy applied on success in paper mode. -/
def apply_submission (cfg : AppConfig) (key : OrderKey) (now : ℚ) (child : OrderRequest)
    (resp : OrderResult) (s : ManagerState) : ManagerState :=
  let s :=
    if resp.success ∧ cfg.mode = .live then
      let fee_est := trade_fee_rate cfg * child.notional
      { s with live_cash_usd := max (s.live_cash_usd - child.notional - fee_est) 0 }
    else s
  let st := (alookup key s.orders).getD {}
  let order_ids := st.order_ids ++ oidList resp.order_id
  let total_notional := st.total_notional + child.notional
  let total_size := st.total_size + child.size
  let pf : PaperStats × ℚ :=
    if resp.success ∧ cfg.mode = .paper then
      let bf := paper_apply_buy cfg s.paper child.notional
      (bf.1, st.fee_paid + bf.2)
    else (s.paper, st.fee_paid)
  let st' := { st with
    status := if resp.success then "submitted" else "error",
    order_ids := order_ids,
    total_notional := total_notional,
    total_size := total_size,
    fee_paid := pf.2,
    last_error := if resp.success then "" else resp.message,
    updated_at := some now }
  { s with paper := pf.1, orders := aset key st' s.orders }

/-- One submission the child loop performed: the child order as passed to
`executor.submit`, together with the exposure headroom
(`_remaining_total_exposure_usd()`) the loop read at the top of that
iteration and the live per-order cap (`_live_max_notional()`) at that
point. -/
structure SubmitEvent where
  child : OrderRequest
  headroom_before : ℚ
  live_cap_before : ℚ

/-- Result of running `submit_with_risk`: the returned `results` list, the
trace of performed submissions, and the final manager state. -/
structure SubmitOutcome where
  results : List OrderResult
  events : List SubmitEvent
  state : ManagerState

/-- The child loop of `submit_with_risk` (lines 650–813 of
`order_manager.py`).  `exec` is the executor collaborator, indexed by how
many submissions have been performed so far. -/
def submit_children (cfg : AppConfig) (exec : ℕ → ExecResp) (now : ℚ) (key : OrderKey) :
    List OrderRequest → ManagerState → ℕ → SubmitOutcome
  | [], s, _ => ⟨[], [], s⟩
  | child :: rest, s, idx =>
    match submit_gate cfg s now child with
    | .skip => submit_children cfg exec now key rest s idx
    | .stop => ⟨[], [], s⟩
    | .go c =>
      let resp := mkResult c (exec idx)
      let ev : SubmitEvent :=
        ⟨c, remaining_total_exposure_usd cfg s, live_max_notional cfg s⟩
      let s' := apply_submission cfg key now c resp s
      let out := submit_children cfg exec now key rest s' (idx + 1)
      ⟨resp :: out.results, ev :: out.events, out.state⟩

/-- The fresh record `submit_with_risk` upserts for a new logical key
(status `planned`, zero totals; `upsert_order` stamps `updated_at`). -/
def planned_record (o : OrderRequest) (now : ℚ) : OrderRecord :=
  { market_slug := o.market_slug, outcome := o.outcome, token_id := o.token_id,
    asset_symbol := o.asset_symbol, start_time := some o.start_time,
    end_time := some o.end_time, status := "planned", created_at := now,
    updated_at := some now, order_ids := [], total_notional := 0,
    total_size := 0, fee_paid := 0 }

/-- `OrderManager.submit_with_risk`.  The two leading network refreshes
only re-sync `live_cash_usd` and `token_sizes` from remote services and
are absorbed into the input state; the embedded body starts at
`self._cleanup_old()` (line 605). -/
def submit_with_risk (cfg : AppConfig) (exec : ℕ → ExecResp) (now : ℚ)
    (o : OrderRequest) (s : ManagerState) : SubmitOutcome :=
  let s := { s with orders := cleanupOrders now cfg.max_age_seconds s.orders }
  if should_skip s o then ⟨[], [], s⟩
  else if 0 < position_exposure s o.token_id then ⟨[], [], s⟩
  else
    let key := order_key o
    let s :=
      match alookup key s.orders with
      | some _ => s
      | none => { s with orders := aset key (planned_record o now) s.orders }
    submit_children cfg exec now key (plan_children cfg o) s 0

/-- Processing of one `submitted` record by `OrderManager.poll_status`
(lines 837–963 of `order_manager.py`).  `positions` is the position
snapshot's `token_sizes`; `fetch` is the result of
`binance.get_open_close_change(asset, start, end)` (`none` models the call
raising).  Returns the updated record, the updated paper stats, and the
`(asset, win)` fed to `strategy.update_trade_result` (`none` when the
fetch failed or `start_time` was absent). -/
def poll_record (cfg : AppConfig) (positions : List (String × ℚ))
    (fetch : Option (ℚ × ℚ × ℚ)) (now : ℚ) (paper : PaperStats) (r : OrderRecord) :
    OrderRecord × PaperStats × Option (String × Bool) :=
  if r.status ≠ "submitted" then (r, paper, none)
  else if r.token_id ≠ "" ∧ 0 < (alookup r.token_id positions).getD 0 then
    ({ r with status := "filled", updated_at := some now }, paper, none)
  else
    match r.end_time with
    | none => (r, paper, none)
    | some e =>
      if e < now then
        let fr : Option (String × Bool) :=
          match r.start_time, fetch with
          | some _, some (_, _, chg) =>
            let actual := if 0 < chg then "Up" else "Down"
            some (actual, decide (actual = r.outcome))
          | _, _ => none
        let win : Bool := match fr with | some (_, w) => w | none => false
        let upd : Option (String × Bool) :=
          match fr with | some (_, w) => some (r.asset_symbol, w) | none => none
        match cfg.mode, r.start_time with
        | .paper, some _ =>
          let payout := if win then r.total_size else 0
          let settlement_fee := cfg.settlement_fee_usd
          let pnl := payout - r.total_notional - r.fee_paid - settlement_fee
          let paper' := paper_apply_settlement paper pnl payout win settlement_fee
          ({ r with status := "settled",
                    result := if win then "win" else "lose",
                    settled_at := some now }, paper', upd)
        | _, _ =>
          ({ r with status := "expired", updated_at := some now }, paper, upd)
      else (r, paper, none)

/-- The record-scanning loop of `OrderManager.poll_status`: applies
`poll_record` to every stored record in order, threading the paper stats,
and collecting the results fed back to the strategy. -/
def poll_status_orders (cfg : AppConfig) (positions : List (String × ℚ))
    (fetch : OrderKey → Option (ℚ × ℚ × ℚ)) (now : ℚ) :
    List (OrderKey × OrderRecord) → PaperStats →
      List (OrderKey × OrderRecord) × PaperStats × List (String × Bool)
  | [], paper => ([], paper, [])
  | (k, r) :: rest, paper =>
    let one := poll_record cfg positions (fetch k) now paper r
    let out := poll_status_orders cfg positions fetch now rest one.2.1
    ((k, one.1) :: out.1, out.2.1,
      match one.2.2 with
      | some u => u :: out.2.2
      | none => out.2.2)

/-- `polymarket_gamma.UpDownMarket`: the fields `generate_orders` reads. -/
structure UpDownMarket where
  market_slug : String
  asset_symbol : String
  start_time : ℚ
  end_time : ℚ
  outcomes : List String
  outcome_token_ids : List String

/-- The mutable per-instance state of `UpDownLagArbStrategy`:
`traded_keys` (key → traded expiry), `last_trade_ts_by_asset`,
`price_history`, `consecutive_losses` and `asset_performance`
(wins, losses). -/
structure StratState where
  traded_keys : List (String × ℚ)
  last_trade_ts_by_asset : List (String × ℚ)
  price_history : List (String × List ℚ)
  consecutive_losses : List (String × ℕ)
  asset_performance : List (String × (ℕ × ℕ))

/-- `UpDownLagArbStrategy.update_trade_result`: a win resets the asset's
consecutive-loss counter to zero, a loss increments it; the win/loss
tallies are updated either way. -/
def update_trade_result (s : StratState) (asset : String) (is_win : Bool) : StratState :=
  let cl := (alookup asset s.consecutive_losses).getD 0
  let wl := (alookup asset s.asset_performance).getD (0, 0)
  if is_win then
    { s with consecutive_losses := aset asset 0 s.consecutive_losses,
             asset_performance := aset asset (wl.1 + 1, wl.2) s.asset_performance }
  else
    { s with consecutive_losses := aset asset (cl + 1) s.consecutive_losses,
             asset_performance := aset asset (wl.1, wl.2 + 1) s.asset_performance }

/-- `UpDownLagArbStrategy._has_too_many_losses`: 3 or more consecutive
losses recorded for the asset. -/
def has_too_many_losses (s : StratState) (asset : String) : Bool :=
  match alookup asset s.consecutive_losses with
  | none => false
  | some n => decide (3 ≤ n)

/-- `all(recent[i] >= recent[i-1] * c for i in range(1, len(recent)))`. -/
def pairwise_ge (c : ℚ) : List ℚ → Bool
  | a :: b :: rest => decide (a * c ≤ b) && pairwise_ge c (b :: rest)
  | _ => true

/-- `all(recent[i] <= recent[i-1] * c for i in range(1, len(recent)))`. -/
def pairwise_le (c : ℚ) : List ℚ → Bool
  | a :: b :: rest => decide (b ≤ a * c) && pairwise_le c (b :: rest)
  | _ => true

/-- `UpDownLagArbStrategy._check_trend_continuation`. -/
def check_trend_continuation (s : StratState) (asset : String) (is_up : Bool) : Bool :=
  match alookup asset s.price_history with
  | none => false
  | some prices =>
    if prices.length < 5 then false
    else
      let recent := prices.drop (prices.length - 5)
      if is_up then pairwise_ge (98 / 100) recent else pairwise_le (102 / 100) recent

/-- The three alternative admission signals of `generate_orders`
(threshold breakout with a volatility-scaled dynamic threshold, medium
move with high confidence, trend continuation); any one suffices. -/
def should_trade_signal (cfg : StrategyConfig) (s : StratState) (m : UpDownMarket)
    (change_pct vol : ℚ) : Bool :=
  let dynamic_threshold :=
    if 0 < cfg.volatility_mult then max cfg.min_abs_return_pct (cfg.volatility_mult * vol)
    else cfg.min_abs_return_pct
  if dynamic_threshold ≤ |change_pct| then true
  else if 1 / 2 ≤ |change_pct| ∧ |change_pct| < dynamic_threshold ∧
      (8 / 10) * vol < |change_pct| then true
  else if 3 / 10 ≤ |change_pct| ∧
      check_trend_continuation s m.asset_symbol (0 < change_pct) then true
  else false

/-- The admission decision after applying the consecutive-loss circuit
breaker: `if should_trade and self._has_too_many_losses(...):
should_trade = False`. -/
def should_trade_flag (cfg : StrategyConfig) (s : StratState) (m : UpDownMarket)
    (change_pct vol : ℚ) : Bool :=
  if should_trade_signal cfg s m change_pct vol ∧ has_too_many_losses s m.asset_symbol then
    false
  else should_trade_signal cfg s m change_pct vol

/-- The external collaborators and clock `generate_orders` consults:
`symbol_map` is membership in `binance_cfg.symbol_map`, `fetch` is
`binance_client.get_open_close_change_and_volatility(asset, start, now)`
returning `(open, close, changePct, vol)` (`none` models the call
raising), `best_ask` is `clob_client.get_best_ask(token_id)`. -/
structure StratEnv where
  now : ℚ
  symbol_map : String → Bool
  fetch : String → ℚ → Option (ℚ × ℚ × ℚ × ℚ)
  best_ask : String → Option ℚ

/-- Result of evaluating one market in `generate_orders`'s loop: `skip`
models all the `continue` paths, `stop` the `break` on an exhausted
notional budget, `emit` an appended order together with the updated
strategy state and running total. -/
inductive MarketStep where
  | skip : MarketStep
  | stop : MarketStep
  | emit : OrderRequest → StratState → ℚ → MarketStep

/-- Order construction and state update for an admitted market (lines
96–124 of `strategy_updown_lag_arb.py`): build the order at the best ask
with `size = notional / best_ask`, record the traded key (valued by the
market expiry) and the per-asset last-trade timestamp, and append the
close to the price history capped at 20 entries. -/
def emit_order (env : StratEnv) (s : StratState) (total : ℚ) (m : UpDownMarket)
    (close_price change_pct notional best_ask : ℚ) (token_id : String) : MarketStep :=
  let desired := if 0 < change_pct then "Up" else "Down"
  let o : OrderRequest :=
    ⟨m.market_slug, m.asset_symbol, desired, token_id, best_ask,
      notional / best_ask, notional, m.start_time, m.end_time, "FOK"⟩
  let key := m.market_slug ++ "|" ++ m.asset_symbol
  let hist0 := (alookup m.asset_symbol s.price_history).getD [] ++ [close_price]
  let hist := if 20 < hist0.length then hist0.drop 1 else hist0
  let s' : StratState :=
    { s with traded_keys := aset key m.end_time s.traded_keys,
             last_trade_ts_by_asset := aset m.asset_symbol env.now s.last_trade_ts_by_asset,
             price_history := aset m.asset_symbol hist s.price_history }
  .emit o s' (total + notional)

/-- The admission stage of one market-loop iteration (lines 63–124 of
`strategy_updown_lag_arb.py`), entered after a successful reference-price
fetch: the post-breaker trade decision, the outcome/price/edge checks,
the running-budget `break`, and the sized emission. -/
def admit_market (cfg : StrategyConfig) (env : StratEnv) (s : StratState) (total : ℚ)
    (m : UpDownMarket) (close_price change_pct vol : ℚ) : MarketStep :=
  let desired := if 0 < change_pct then "Up" else "Down"
  if ¬ should_trade_flag cfg s m change_pct vol then .skip
  else if desired ∉ m.outcomes then .skip
  else
    let token_id := m.outcome_token_ids.getD (m.outcomes.indexOf desired) ""
    match env.best_ask token_id with
    | none => .skip
    | some best_ask =>
      if cfg.max_entry_price < best_ask then .skip
      else
        let edge := 1 - best_ask - cfg.fee_estimate
        if edge < cfg.min_edge then .skip
        else
          let remaining := cfg.max_total_notional - total
          if remaining ≤ 0 then .stop
          else
            emit_order env s total m close_price change_pct
              (min remaining
                (min cfg.max_notional_per_market cfg.max_notional_per_trade))
              best_ask token_id

/-- One iteration of the market loop of
`UpDownLagArbStrategy.generate_orders` (lines 33–125 of
`strategy_updown_lag_arb.py`): the already-traded, cooldown, expiry
window, symbol-map and market-open `continue` checks, then the
reference-price fetch (skipping the market when it raises) feeding the
admission stage.  Well-formed markets carry one token id per outcome
label; the token lookup in the admission stage defaults to `""` when the
id list is shorter. -/
def eval_market (cfg : StrategyConfig) (env : StratEnv) (s : StratState) (total : ℚ)
    (m : UpDownMarket) : MarketStep :=
  let key := m.market_slug ++ "|" ++ m.asset_symbol
  if (alookup key s.traded_keys).isSome then .skip
  else
    let last_ts := (alookup m.asset_symbol s.last_trade_ts_by_asset).getD 0
    if last_ts ≠ 0 ∧ env.now - last_ts < cfg.trade_cooldown_seconds then .skip
    else
      let time_to_end_min := (m.end_time - env.now) / 60
      if time_to_end_min < cfg.min_time_to_end_minutes then .skip
      else if cfg.max_time_to_end_minutes < time_to_end_min then .skip
      else if ¬ env.symbol_map m.asset_symbol then .skip
      else if env.now ≤ m.start_time then .skip
      else
        match env.fetch m.asset_symbol m.start_time with
        | none => .skip
        | some (_, close_price, change_pct, vol) =>
          admit_market cfg env s total m close_price change_pct vol

/-- The market loop of `UpDownLagArbStrategy.generate_orders`, threading
the emitted orders, the strategy state and the running total notional. -/
def generate_orders_loop (cfg : StrategyConfig) (env : StratEnv) :
    List UpDownMarket → StratState → ℚ → List OrderRequest × StratState
  | [], s, _ => ([], s)
  | m :: rest, s, total =>
    match eval_market cfg env s total m with
    | .skip => generate_orders_loop cfg env rest s total
    | .stop => ([], s)
    | .emit o s' total' =>
      let out := generate_orders_loop cfg env rest s' total'
      (o :: out.1, out.2)

/-- `UpDownLagArbStrategy.generate_orders`. -/
def generate_orders (cfg : StrategyConfig) (env : StratEnv) (markets : List UpDownMarket)
    (s : StratState) : List OrderRequest × StratState :=
  generate_orders_loop cfg env markets s 0

/-- One 1-minute kline row as `binance_client.py` reads it: `row[1]` is
the open price, `row[4]` the close price. -/
structure Kline where
  openPrice : ℝ
  closePrice : ℝ

/-- The log-return accumulation loop of
`BinanceClient._stdev_minute_log_returns`: walk the tail of the kline
list, appending `log(close / prev_close)` whenever both prices are
positive, always advancing `prev_close`. -/
noncomputable def log_returns_from (prev : ℝ) : List Kline → List ℝ
  | [] => []
  | k :: rest =>
    if 0 < prev ∧ 0 < k.closePrice then
      Real.log (k.closePrice / prev) :: log_returns_from k.closePrice rest
    else log_returns_from k.closePrice rest

/-- The consecutive log-returns of the 1-minute closes of a kline list
(`prev_close` starts at `data[0]`'s close). -/
noncomputable def minute_log_returns : List Kline → List ℝ
  | [] => []
  | d :: rest => log_returns_from d.closePrice rest

/-- `BinanceClient._stdev_minute_log_returns`: Bessel-corrected sample
standard deviation of the consecutive log-returns; `0` for fewer than 3
samples or fewer than 2 computable returns. -/
noncomputable def stdev_minute_log_returns (data : List Kline) : ℝ :=
  if data.length < 3 then 0
  else
    let returns := minute_log_returns data
    let n := returns.length
    if n < 2 then 0
    else
      let mean := returns.sum / n
      let var := (returns.map fun r => (r - mean) ^ 2).sum / ((n : ℝ) - 1)
      Real.sqrt var

/-- `BinanceClient.get_open_close_change_and_volatility` on the fetched
1-minute klines: `none` models the `RuntimeError` raised on an empty
response; otherwise returns `(open, close, changePct, volatility)` with
the first sample's open and the last sample's close. -/
noncomputable def get_open_close_change_and_volatility : List Kline → Option (ℝ × ℝ × ℝ × ℝ)
  | [] => none
  | d :: rest =>
    let openPrice := d.openPrice
    let closePrice := (rest.getLastD d).closePrice
    some (openPrice, closePrice, (closePrice - openPrice) / openPrice,
      stdev_minute_log_returns (d :: rest))

/-- Running `_plan_children`'s loop with a non-positive remainder performs
no iteration. -/
theorem plan_children_loop_nonpos (maxChild : ℚ) (o : OrderRequest) (fuel : ℕ) (r : ℚ)
    (hr : r ≤ 0) : plan_children_loop maxChild o fuel r = [] := by
  cases fuel with
  | zero => rfl
  | succ n => simp [plan_children_loop, not_lt.mpr hr]

/-- With a positive remainder and positive fuel the loop emits at least
one child. -/
theorem plan_children_loop_ne_nil (maxChild : ℚ) (o : OrderRequest) (fuel : ℕ) (r : ℚ)
    (hr : 0 < r) (hf : 0 < fuel) : plan_children_loop maxChild o fuel r ≠ [] := by
  cases fuel with
  | zero => exact absurd hf (lt_irrefl 0)
  | succ n => simp [plan_children_loop, hr]

/-- Every child the split loop emits carries the parent's price, a size
consistent with its notional, the parent's expiry, and a notional of at
most `maxChild`. -/
theorem plan_children_loop_shape (maxChild : ℚ) (o : OrderRequest) :
    ∀ (fuel : ℕ) (r : ℚ), ∀ c ∈ plan_children_loop maxChild o fuel r,
      c.price = o.price ∧ c.size = c.notional / c.price ∧ c.end_time = o.end_time ∧
        c.notional ≤ maxChild := by
  intro fuel
  induction fuel with
  | zero => intro r c hc; simp [plan_children_loop] at hc
  | succ n ih =>
    intro r c hc
    by_cases hr : 0 < r
    · simp only [plan_children_loop, if_pos hr, List.mem_cons] at hc
      rcases hc with hc | hc
      · subst hc
        refine ⟨rfl, rfl, rfl, ?_⟩
        exact min_le_left _ _
      · exact ih _ c hc
    · simp [plan_children_loop, hr] at hc

/-- With enough fuel the split loop's child notionals sum to the
remainder exactly. -/
theorem plan_children_loop_sum (maxChild : ℚ) (o : OrderRequest) (hC : 0 < maxChild) :
    ∀ (fuel : ℕ) (r : ℚ), 0 < r → r ≤ fuel * maxChild →
      ((plan_children_loop maxChild o fuel r).map OrderRequest.notional).sum = r := by
  intro fuel
  induction fuel with
  | zero =>
    intro r hr hb
    simp only [Nat.cast_zero, zero_mul] at hb
    exact absurd (lt_of_lt_of_le hr hb) (lt_irrefl 0)
  | succ n ih =>
    intro r hr hb
    simp only [plan_children_loop, if_pos hr, List.map_cons, List.sum_cons,
      child_with_notional]
    by_cases hrC : r ≤ maxChild
    · rw [min_eq_right hrC]
      rw [plan_children_loop_nonpos maxChild o n (r - r) (by linarith)]
      simp
    · push_neg at hrC
      rw [min_eq_left (le_of_lt hrC)]
      rw [ih (r - maxChild) (by linarith) (by push_cast at hb ⊢; linarith)]
      ring

/-- With enough fuel, every child of the split loop except the last has
notional exactly `maxChild`. -/
theorem plan_children_loop_dropLast (maxChild : ℚ) (o : OrderRequest) (hC : 0 < maxChild) :
    ∀ (fuel : ℕ) (r : ℚ), r ≤ fuel * maxChild →
      ∀ c ∈ (plan_children_loop maxChild o fuel r).dropLast, c.notional = maxChild := by
  intro fuel
  induction fuel with
  | zero => intro r hb c hc; simp [plan_children_loop] at hc
  | succ n ih =>
    intro r hb c hc
    by_cases hr : 0 < r
    · by_cases hrC : r ≤ maxChild
      · rw [show plan_children_loop maxChild o (n + 1) r =
            child_with_notional o (min maxChild r) ::
              plan_children_loop maxChild o n (r - min maxChild r) from by
            simp [plan_children_loop, hr]] at hc
        rw [min_eq_right hrC, plan_children_loop_nonpos maxChild o n (r - r) (by linarith)]
          at hc
        simp at hc
      · push_neg at hrC
        have hr' : 0 < r - maxChild := by linarith
        have hb' : r - maxChild ≤ n * maxChild := by push_cast at hb ⊢; linarith
        have hn : 0 < n := by
          rcases Nat.eq_zero_or_pos n with h0 | h0
          · subst h0; simp only [Nat.cast_zero, zero_mul] at hb'; linarith
          · exact h0
        rw [show plan_children_loop maxChild o (n + 1) r =
            child_with_notional o (min maxChild r) ::
              plan_children_loop maxChild o n (r - min maxChild r) from by
            simp [plan_children_loop, hr]] at hc
        rw [min_eq_left (le_of_lt hrC)] at hc
        rcases h : plan_children_loop maxChild o n (r - maxChild) with _ | ⟨a, l⟩
        · exact absurd h (plan_children_loop_ne_nil maxChild o n (r - maxChild) hr' hn)
        · rw [h, List.dropLast_cons₂, List.mem_cons] at hc
          rcases hc with hc | hc
          · subst hc; rfl
          · exact ih (r - maxChild) hb' c (h ▸ hc)
    · rw [plan_children_loop_nonpos maxChild o (n + 1) r (not_lt.mp hr)] at hc
      simp at hc

/-- `plan_fuel` supplies enough fuel: `notional ≤ plan_fuel * maxChild`. -/
theorem plan_fuel_spec (n maxChild : ℚ) (hC : 0 < maxChild) (hn : 0 < n) :
    n ≤ (plan_fuel n maxChild : ℚ) * maxChild := by
  have hq : (0 : ℚ) < n / maxChild := div_pos hn hC
  have hceil : 0 < ⌈n / maxChild⌉ := Int.ceil_pos.mpr hq
  have hle : n / maxChild ≤ (⌈n / maxChild⌉ : ℚ) := Int.le_ceil _
  have hcast : ((plan_fuel n maxChild : ℕ) : ℚ) = ((⌈n / maxChild⌉ : ℤ) : ℚ) := by
    unfold plan_fuel
    norm_cast
    exact Int.toNat_of_nonneg (le_of_lt hceil)
  rw [hcast]
  calc n = n / maxChild * maxChild := by field_simp
  _ ≤ (⌈n / maxChild⌉ : ℚ) * maxChild := by
      exact mul_le_mul_of_nonneg_right hle (le_of_lt hC)

/-- The split loop runs to completion under `plan_fuel`: its result does
not change when it is given any more fuel, so the fuelled definition
computes exactly what the unbounded `while remaining > 0` loop computes. -/
theorem plan_children_loop_fuel_irrel (maxChild : ℚ) (o : OrderRequest) (hC : 0 < maxChild) :
    ∀ (fuel k : ℕ) (r : ℚ), r ≤ fuel * maxChild →
      plan_children_loop maxChild o (fuel + k) r = plan_children_loop maxChild o fuel r := by
  intro fuel
  induction fuel with
  | zero =>
    intro k r hb
    simp only [Nat.cast_zero, zero_mul] at hb
    rw [Nat.zero_add, plan_children_loop_nonpos maxChild o k r hb]
    rfl
  | succ n ih =>
    intro k r hb
    by_cases hr : 0 < r
    · have : n + 1 + k = (n + k) + 1 := by omega
      rw [this]
      simp only [plan_children_loop, if_pos hr]
      by_cases hrC : r ≤ maxChild
      · rw [min_eq_right hrC, plan_children_loop_nonpos maxChild o (n + k) (r - r)
          (by linarith), plan_children_loop_nonpos maxChild o n (r - r) (by linarith)]
      · push_neg at hrC
        rw [min_eq_left (le_of_lt hrC), ih k (r - maxChild) (by push_cast at hb ⊢; linarith)]
    · rw [plan_children_loop_nonpos maxChild o (n + 1 + k) r (not_lt.mp hr),
        plan_children_loop_nonpos maxChild o (n + 1) r (not_lt.mp hr)]

/-- Every child `_plan_children` returns carries the parent's expiry. -/
theorem plan_children_end_time (cfg : AppConfig) (o : OrderRequest) :
    ∀ c ∈ plan_children cfg o, c.end_time = o.end_time := by
  intro c hc
  by_cases h : cfg.strategy.max_child_notional ≤ 0 ∨
      o.notional ≤ cfg.strategy.max_child_notional
  · simp only [plan_children] at hc
    rw [if_pos h] at hc
    simp only [List.mem_singleton] at hc
    subst hc; rfl
  · simp only [plan_children] at hc
    rw [if_neg h] at hc
    exact (plan_children_loop_shape _ o _ _ c hc).2.2.1

/-- If every planned child has already expired, the child loop submits
nothing and leaves the state untouched. -/
theorem submit_children_all_expired (cfg : AppConfig) (exec : ℕ → ExecResp) (now : ℚ)
    (key : OrderKey) (children : List OrderRequest) (s : ManagerState) (idx : ℕ)
    (h : ∀ c ∈ children, c.end_time ≤ now) :
    submit_children cfg exec now key children s idx = ⟨[], [], s⟩ := by
  induction children with
  | nil => rfl
  | cons child rest ih =>
    have hc : child.end_time ≤ now := h child (List.mem_cons_self _ _)
    have hgate : submit_gate cfg s now child = Gate.skip := by
      simp [submit_gate, hc]
    simp only [submit_children, hgate]
    exact ih fun c hc' => h c (List.mem_cons_of_mem _ hc')

/-- C3: terminal states block resubmission.  For an `OrderRequest` whose
logical key has a stored record in a terminal state (`settled` or
`expired`), a later `submit_with_risk` call performs no child submission
and returns an empty result list.  `settled`/`expired` are only ever set
by `poll_status` after the expiry has passed, so a later call satisfies
`o.end_time ≤ now`; a `settled` record is caught by `should_skip`, while
an `expired` record falls through the guard but every planned child then
fails the `datetime.now() >= child.end_time` check, so the loop submits
nothing either way. -/
theorem C3_terminal_blocks_resubmission (cfg : AppConfig) (exec : ℕ → ExecResp) (now : ℚ)
    (o : OrderRequest) (s : ManagerState) (r : OrderRecord)
    (hrec : alookup (order_key o) s.orders = some r)
    (hterm : r.status = "settled" ∨ r.status = "expired")
    (hexp : o.end_time ≤ now) :
    (submit_with_risk cfg exec now o s).results = [] ∧
    (submit_with_risk cfg exec now o s).events = [] := by
  clear hrec hterm
  simp only [submit_with_risk]
  by_cases h1 : should_skip
      { s with orders := cleanupOrders now cfg.max_age_seconds s.orders } o
  · simp [h1]
  · simp only [h1, Bool.false_eq_true, if_false]
    by_cases h2 : 0 < position_exposure
        { s with orders := cleanupOrders now cfg.max_age_seconds s.orders } o.token_id
    · simp [h2]
    · simp only [h2, if_false]
      have hall : ∀ c ∈ plan_children cfg o, c.end_time ≤ now := fun c hc =>
        le_of_eq_of_le (plan_children_end_time cfg o c hc) hexp
      rw [submit_children_all_expired cfg exec now (order_key o) (plan_children cfg o) _ 0 hall]
      exact ⟨rfl, rfl⟩

/-- An all-zero strategy configuration used as the base of the concrete
test fixtures. -/
def stratCfg0 : StrategyConfig := ⟨0, 0, 0, 0, 0, 0, 0, 0, 0, 0, 0, 0⟩

/-- A base paper-mode application configuration for the concrete test
fixtures (48h store max age, no fee service). -/
def appCfg0 : AppConfig :=
  { mode := .paper, strategy := stratCfg0, max_total_exposure_fraction := 0,
    paper_max_fraction_per_trade := 0, paper_max_open_orders := 0, paper_min_notional := 0,
    live_roll_threshold_usd := 0, live_max_notional_below_threshold := 0,
    live_max_fraction_above_threshold := 0, live_min_notional := 0,
    trade_fee_rate := none, settlement_fee_usd := 0, max_age_seconds := 172800 }

/-- An executor oracle whose every submission fails. -/
def execFail : ℕ → ExecResp := fun _ => ⟨false, "order rejected", none⟩

/-- An executor oracle whose every submission succeeds without an id. -/
def execOk : ℕ → ExecResp := fun _ => ⟨true, "ok", none⟩

/-- Concrete order request for the C3 witness: expiry at t = 100. -/
def oC3 : OrderRequest := ⟨"mkt-c3", "BTC", "Up", "tokC3", 1, 1, 1, 0, 100, "FOK"⟩

/-- Concrete settled record for the C3 witness. -/
def rC3 : OrderRecord :=
  { market_slug := "mkt-c3", outcome := "Up", token_id := "tokC3", asset_symbol := "BTC",
    start_time := some 0, end_time := some 100, status := "settled", created_at := 50,
    updated_at := some 150, total_notional := 1, total_size := 1 }

/-- Concrete manager state for the C3 witness. -/
def sC3 : ManagerState :=
  ⟨[(order_key oC3, rC3)], { cash := 10 }, 0, none, none, 0, []⟩

/-- Witness for C3: with a settled record stored for the key, a call at
t = 200 (after the t = 100 expiry) submits nothing and returns `[]`. -/
theorem C3_terminal_blocks_resubmission_witness :
    (submit_with_risk appCfg0 execFail 200 oC3 sC3).results = [] ∧
    (submit_with_risk appCfg0 execFail 200 oC3 sC3).events = [] :=
  C3_terminal_blocks_resubmission appCfg0 execFail 200 oC3 sC3 rC3
    (by simp [alookup, sC3]) (Or.inl rfl) (by norm_num [oC3])

/-- C7: split correctness of `_plan_children`.  For a parent order with
positive price and consistent size, a non-positive max-child cap or a
notional within the cap returns the single original order; with a
positive cap every child carries the parent's price (size recomputed as
`notional / price`) and expiry, each child's notional is at most the cap,
the children's notionals sum exactly to the parent notional, and when the
notional exceeds the cap every child but the last carries exactly the cap
(the last absorbs the remainder). -/
theorem C7_split_correctness (cfg : AppConfig) (o : OrderRequest)
    (hp : 0 < o.price) (hsz : o.size = o.notional / o.price) :
    ((cfg.strategy.max_child_notional ≤ 0 ∨
        o.notional ≤ cfg.strategy.max_child_notional) → plan_children cfg o = [o]) ∧
    (0 < cfg.strategy.max_child_notional →
      (∀ c ∈ plan_children cfg o,
        c.price = o.price ∧ c.size = c.notional / c.price ∧
          c.notional ≤ max cfg.strategy.max_child_notional o.notional) ∧
      ((plan_children cfg o).map OrderRequest.notional).sum = o.notional ∧
      (cfg.strategy.max_child_notional < o.notional →
        (∀ c ∈ plan_children cfg o, c.notional ≤ cfg.strategy.max_child_notional) ∧
        ∀ c ∈ (plan_children cfg o).dropLast,
          c.notional = cfg.strategy.max_child_notional)) := by
  constructor
  · intro h
    simp only [plan_children]
    rw [if_pos h]
  · intro hC
    by_cases hNC : o.notional ≤ cfg.strategy.max_child_notional
    · have hch : plan_children cfg o = [o] := by
        simp only [plan_children]
        rw [if_pos (Or.inr hNC)]
      refine ⟨?_, ?_, ?_⟩
      · intro c hc
        rw [hch, List.mem_singleton] at hc
        subst hc
        exact ⟨rfl, hsz, le_max_right _ _⟩
      · rw [hch]; simp
      · intro hCN
        exact absurd hNC (not_le.mpr hCN)
    · push_neg at hNC
      have hN : 0 < o.notional := lt_trans hC hNC
      have hch : plan_children cfg o =
          plan_children_loop cfg.strategy.max_child_notional o
            (plan_fuel o.notional cfg.strategy.max_child_notional) o.notional := by
        simp only [plan_children]
        rw [if_neg (by push_neg; exact ⟨hC, hNC⟩)]
      have hb := plan_fuel_spec o.notional cfg.strategy.max_child_notional hC hN
      refine ⟨?_, ?_, ?_⟩
      · intro c hc
        rw [hch] at hc
        have hs := plan_children_loop_shape cfg.strategy.max_child_notional o _ _ c hc
        exact ⟨hs.1, hs.2.1, le_max_of_le_left hs.2.2.2⟩
      · rw [hch]
        exact plan_children_loop_sum _ o hC _ _ hN hb
      · intro _
        constructor
        · intro c hc
          rw [hch] at hc
          exact (plan_children_loop_shape _ o _ _ c hc).2.2.2
        · intro c hc
          rw [hch] at hc
          exact plan_children_loop_dropLast _ o hC _ _ hb c hc

/-- Concrete order and configuration for the C7 witness: notional 5,
price 1, max child notional 2 (expected split 2, 2, 1). -/
def o7 : OrderRequest := ⟨"mkt-c7", "ETH", "Up", "tok7", 1, 5, 5, 0, 3600, "FOK"⟩

/-- Configuration with `max_child_notional = 2` for the C7 witness. -/
def cfg7 : AppConfig := { appCfg0 with strategy := { stratCfg0 with max_child_notional := 2 } }

/-- Witness for C7: at notional 5 with cap 2 the children's notionals sum
to 5, each is at most 2, and all but the last are exactly 2. -/
theorem C7_split_correctness_witness :
    ((plan_children cfg7 o7).map OrderRequest.notional).sum = o7.notional ∧
    (∀ c ∈ plan_children cfg7 o7, c.notional ≤ cfg7.strategy.max_child_notional) ∧
    (∀ c ∈ (plan_children cfg7 o7).dropLast,
      c.notional = cfg7.strategy.max_child_notional) := by
  have h := C7_split_correctness cfg7 o7 (by norm_num [o7]) (by norm_num [o7])
  have h2 := h.2 (by norm_num [cfg7, appCfg0, stratCfg0])
  have h3 := h2.2.2 (by norm_num [cfg7, appCfg0, stratCfg0, o7])
  exact ⟨h2.2.1, h3.1, h3.2⟩

/-- C10: `JsonStateStore.cleanup` evicts a record exactly when its
`updated_at` is present, nonzero, and older than `max_age_seconds`; a
record whose `updated_at` is missing or zero is never evicted regardless
of age; and cleanup is a filter, so every surviving record keeps exactly
the contents it had before. -/
theorem C10_cleanup_eviction (now maxAge : ℚ) (orders : List (OrderKey × OrderRecord))
    (k : OrderKey) (r : OrderRecord) :
    (cleanupOrders now maxAge orders).Sublist orders ∧
    ((k, r) ∈ cleanupOrders now maxAge orders ↔
      (k, r) ∈ orders ∧ ¬(updatedAtVal r ≠ 0 ∧ maxAge < now - updatedAtVal r)) ∧
    ((r.updated_at = none ∨ r.updated_at = some 0) → (k, r) ∈ orders →
      (k, r) ∈ cleanupOrders now maxAge orders) := by
  refine ⟨List.filter_sublist _, ?_, ?_⟩
  · simp only [cleanupOrders, evictable, List.mem_filter, Bool.not_eq_true',
      decide_eq_false_iff_not]
  · intro hupd hmem
    simp only [cleanupOrders, List.mem_filter]
    refine ⟨hmem, ?_⟩
    have : updatedAtVal r = 0 := by
      rcases hupd with h | h <;> simp [updatedAtVal, h]
    simp [evictable, this]

/-- Concrete records for the C10 witness: one stale (age beyond the max),
one fresh, one with no `updated_at`. -/
def rStale : OrderRecord := { status := "submitted", updated_at := some 100, total_notional := 5 }

/-- Fresh record for the C10 witness. -/
def rFresh : OrderRecord := { status := "submitted", updated_at := some 999000 }

/-- Record without `updated_at` for the C10 witness. -/
def rNoUpd : OrderRecord := { status := "error" }

/-- Witness for C10: after cleanup at t = 1000000 with a 172800s max age,
the stale record is gone, the fresh one and the one without `updated_at`
survive. -/
theorem C10_cleanup_eviction_witness :
    (("a", "Up", (1 : ℚ)), rNoUpd) ∈ cleanupOrders 1000000 172800
      [(("a", "Up", (1 : ℚ)), rNoUpd), (("b", "Up", (1 : ℚ)), rStale)] ∧
    ¬((("b", "Up", (1 : ℚ)), rStale) ∈ cleanupOrders 1000000 172800
      [(("a", "Up", (1 : ℚ)), rNoUpd), (("b", "Up", (1 : ℚ)), rStale)]) := by
  constructor
  · exact (C10_cleanup_eviction 1000000 172800 _ _ _).2.2 (Or.inl rfl) (by simp)
  · intro hmem
    have h := ((C10_cleanup_eviction 1000000 172800
      [(("a", "Up", (1 : ℚ)), rNoUpd), (("b", "Up", (1 : ℚ)), rStale)]
      ("b", "Up", (1 : ℚ)) rStale).2.1).mp hmem
    exact h.2 (by norm_num [updatedAtVal, rStale])

/-- If a clamped value `N` is below the headroom and a candidate notional
is within the `1e-9` resize tolerance of `N`, the candidate is below the
headroom plus the tolerance. -/
theorem clamp_tol (N child_n er eps : ℚ) (hNer : N ≤ er)
    (hres : ¬ eps < |N - child_n|) : child_n ≤ er + eps := by
  push_neg at hres
  have h1 := (abs_le.mp hres).1
  linarith

/-- When the child-loop gate decides to submit a child, the submitted
notional is clamped to the current exposure headroom (up to the `1e-9`
resize tolerance) — in paper mode always, in live mode whenever the
cash-tiered per-order cap `_live_max_notional` is positive.  (When that
cap is non-positive the live branch submits the child unclamped.) -/
theorem submit_gate_go_clamped (cfg : AppConfig) (s : ManagerState) (now : ℚ)
    (child c : OrderRequest) (h : submit_gate cfg s now child = .go c)
    (hmode : cfg.mode = .paper ∨ 0 < live_max_notional cfg s) :
    c.notional ≤ remaining_total_exposure_usd cfg s + 1 / 1000000000 := by
  have heps : (0 : ℚ) ≤ 1 / 1000000000 := by norm_num
  cases hm : cfg.mode with
  | paper =>
    simp only [submit_gate, hm] at h
    repeat' split at h
    all_goals first
      | exact Gate.noConfusion h
      | (injection h with h'
         subst h'
         first
           | (simp only [child_with_notional]
              exact le_trans (min_le_right _ _) (le_add_of_nonneg_right heps))
           | (rename_i hres
              exact clamp_tol _ _ _ _ (min_le_right _ _) hres))
  | live =>
    have hcap : 0 < live_max_notional cfg s := by
      rcases hmode with hmp | hcap
      · rw [hm] at hmp; exact absurd hmp (by simp)
      · exact hcap
    simp only [submit_gate, hm] at h
    rw [if_pos hcap] at h
    repeat' split at h
    all_goals first
      | exact Gate.noConfusion h
      | (injection h with h'
         subst h'
         first
           | (simp only [child_with_notional]
              exact le_trans (min_le_right _ _) (le_add_of_nonneg_right heps))
           | (rename_i hres
              exact clamp_tol _ _ _ _ (min_le_right _ _) hres))

/-- Every submission event of the child loop satisfies the headroom clamp
under the same mode conditions as `submit_gate_go_clamped`. -/
theorem submit_children_events_clamped (cfg : AppConfig) (exec : ℕ → ExecResp) (now : ℚ)
    (key : OrderKey) :
    ∀ (children : List OrderRequest) (s : ManagerState) (idx : ℕ),
      ∀ ev ∈ (submit_children cfg exec now key children s idx).events,
        (cfg.mode = .paper ∨ 0 < ev.live_cap_before) →
        ev.child.notional ≤ ev.headroom_before + 1 / 1000000000 := by
  intro children
  induction children with
  | nil =>
    intro s idx ev hev
    simp [submit_children] at hev
  | cons child rest ih =>
    intro s idx ev hev hmode
    rcases hg : submit_gate cfg s now child with _ | _ | c
    · rw [show submit_children cfg exec now key (child :: rest) s idx =
          submit_children cfg exec now key rest s idx from by
        simp only [submit_children, hg]] at hev
      exact ih s idx ev hev hmode
    · rw [show submit_children cfg exec now key (child :: rest) s idx = ⟨[], [], s⟩ from by
        simp only [submit_children, hg]] at hev
      simp at hev
    · rw [show submit_children cfg exec now key (child :: rest) s idx =
          ⟨mkResult c (exec idx) ::
              (submit_children cfg exec now key rest
                (apply_submission cfg key now c (mkResult c (exec idx)) s) (idx + 1)).results,
            ⟨c, remaining_total_exposure_usd cfg s, live_max_notional cfg s⟩ ::
              (submit_children cfg exec now key rest
                (apply_submission cfg key now c (mkResult c (exec idx)) s) (idx + 1)).events,
            (submit_children cfg exec now key rest
              (apply_submission cfg key now c (mkResult c (exec idx)) s) (idx + 1)).state⟩
          from by simp only [submit_children, hg]] at hev
      simp only [List.mem_cons] at hev
      rcases hev with hev | hev
      · subst hev
        exact submit_gate_go_clamped cfg s now child c hg hmode
      · exact ih _ (idx + 1) ev hev hmode

/-- C1 (amended): the exposure-cap clamp of `submit_with_risk` holds in
paper mode, and in live mode only while the cash-tiered per-order cap
`_live_max_notional` is positive: every submitted child's notional is at
most the exposure headroom `_remaining_total_exposure_usd` read just
before its submission, up to the `1e-9` resize tolerance the code uses
when deciding whether to shrink a child.  When the live per-order cap is
non-positive (e.g. the tracked live cash is zero) the child is submitted
without any headroom clamp, so the unqualified claim fails (see the
counterexample). -/
theorem C1_exposure_cap_amended (cfg : AppConfig) (exec : ℕ → ExecResp) (now : ℚ)
    (o : OrderRequest) (s : ManagerState) :
    ∀ ev ∈ (submit_with_risk cfg exec now o s).events,
      (cfg.mode = .paper ∨ 0 < ev.live_cap_before) →
      ev.child.notional ≤ ev.headroom_before + 1 / 1000000000 := by
  intro ev hev hmode
  simp only [submit_with_risk] at hev
  by_cases h1 : should_skip
      { s with orders := cleanupOrders now cfg.max_age_seconds s.orders } o = true
  · rw [if_pos h1] at hev
    simp at hev
  · rw [if_neg h1] at hev
    by_cases h2 : 0 < position_exposure
        { s with orders := cleanupOrders now cfg.max_age_seconds s.orders } o.token_id
    · rw [if_pos h2] at hev
      simp at hev
    · rw [if_neg h2] at hev
      exact submit_children_events_clamped cfg exec now (order_key o)
        (plan_children cfg o) _ 0 ev hev hmode

/-- Evaluation form of the absolute value on ℚ, used to decide the
`1e-9` resize-tolerance tests on concrete inputs. -/
theorem abs_eval (a : ℚ) : |a| = if 0 ≤ a then a else -a := by
  split
  · exact abs_of_nonneg (by assumption)
  · exact abs_of_neg (not_le.mp (by assumption))

/-- Live-mode order for the C1 counterexample: notional 100. -/
def oL : OrderRequest := ⟨"mkt-c1", "BTC", "Up", "tokC1", 1 / 2, 200, 100, 0, 100, "FOK"⟩

/-- Live-mode configuration for the C1 counterexample: exposure fraction
1/2, no roll threshold, everything else zero. -/
def cfgL : AppConfig := { appCfg0 with mode := .live, max_total_exposure_fraction := 1 / 2 }

/-- Live-mode state for the C1 counterexample: zero tracked cash, account
value 100, positions value 10 — so the exposure cap is 50 and the used
exposure 10, leaving 40 of headroom, while `_live_max_notional` is 0. -/
def sL : ManagerState := ⟨[], {}, 0, some 100, some 10, 0, []⟩

/-- Paper-mode order for the C1 counterexample: notional `50 + 1e-9`,
one tolerance step above the headroom of 50. -/
def oP : OrderRequest :=
  ⟨"mkt-c1p", "ETH", "Up", "tokC1P", 1, 50 + 1 / 1000000000, 50 + 1 / 1000000000, 0, 100, "FOK"⟩

/-- Paper-mode configuration for the C1 counterexample: exposure fraction
1/2, full per-trade fraction, one open order allowed. -/
def cfgP : AppConfig :=
  { appCfg0 with max_total_exposure_fraction := 1 / 2,
                 paper_max_fraction_per_trade := 1, paper_max_open_orders := 1 }

/-- Paper-mode state for the C1 counterexample: cash 100, no orders. -/
def sP : ManagerState := ⟨[], { cash := 100 }, 0, none, none, 0, []⟩

/-- The submission trace of the live C1 fixture: one child submitted with
headroom 40 and live per-order cap 0. -/
theorem run_events_live :
    (submit_with_risk cfgL execOk 0 oL sL).events = [⟨oL, 40, 0⟩] := by
  norm_num +decide [submit_with_risk, submit_children, submit_gate, apply_submission,
    planned_record, plan_children, plan_children_loop, child_with_notional,
    should_skip, order_key, alookup, aset, position_exposure, cleanupOrders,
    evictable, updatedAtVal, remaining_total_exposure_usd, max_total_exposure_usd,
    current_total_exposure_usd, open_orders_notional, live_open_orders_notional,
    paper_open_orders_count, live_max_notional, trade_fee_rate, paper_apply_buy,
    oidList, mkResult, execOk, cfgL, sL, oL, appCfg0, stratCfg0, min_def, max_def,
    abs_eval, List.filter_cons, List.filter_nil, List.length_nil, List.length_cons]

/-- The submission trace of the paper C1 fixture: one child submitted,
unresized, with headroom 50 and notional `50 + 1e-9`. -/
theorem run_events_paper :
    (submit_with_risk cfgP execOk 0 oP sP).events = [⟨oP, 50, 0⟩] := by
  norm_num +decide [submit_with_risk, submit_children, submit_gate, apply_submission,
    planned_record, plan_children, plan_children_loop, child_with_notional,
    should_skip, order_key, alookup, aset, position_exposure, cleanupOrders,
    evictable, updatedAtVal, remaining_total_exposure_usd, max_total_exposure_usd,
    current_total_exposure_usd, open_orders_notional, live_open_orders_notional,
    paper_open_orders_count, live_max_notional, trade_fee_rate, paper_apply_buy,
    oidList, mkResult, execOk, cfgP, sP, oP, appCfg0, stratCfg0, min_def, max_def,
    abs_eval, List.filter_cons, List.filter_nil, List.length_nil, List.length_cons]

/-- Counterexample to C1 as stated.  Live mode: with account value 100,
positions value 10, exposure fraction 1/2 and zero tracked cash, the
headroom read before submission is 40, `_live_max_notional` is 0, and the
child is submitted unclamped with notional 100 > 40.  Paper mode: a child
of notional `50 + 1e-9` against a headroom of exactly 50 is within the
`1e-9` resize tolerance, is left unresized, and is submitted with
notional strictly above the headroom.  In both modes a child is submitted
whose notional exceeds `_remaining_total_exposure_usd` read just before
its submission. -/
theorem C1_exposure_cap_counterexample :
    (submit_with_risk cfgL execOk 0 oL sL).events = [⟨oL, 40, 0⟩] ∧
    (40 : ℚ) < oL.notional ∧
    (submit_with_risk cfgP execOk 0 oP sP).events = [⟨oP, 50, 0⟩] ∧
    (50 : ℚ) < oP.notional :=
  ⟨run_events_live, by norm_num [oL], run_events_paper, by norm_num [oP]⟩

/-- Witness for the amended C1, at the paper fixture: the submitted
child's notional is within the `1e-9` tolerance of the recorded headroom
of 50. -/
theorem C1_exposure_cap_amended_witness :
    oP.notional ≤ (50 : ℚ) + 1 / 1000000000 := by
  have hev : (⟨oP, 50, 0⟩ : SubmitEvent) ∈ (submit_with_risk cfgP execOk 0 oP sP).events := by
    rw [run_events_paper]
    exact List.mem_singleton.mpr rfl
  exact C1_exposure_cap_amended cfgP execOk 0 oP sP ⟨oP, 50, 0⟩ hev (Or.inl rfl)

/-- Submitted record fixture used by the C2 counterexample: past-expiry,
no fill detected, start time present. -/
def rC2 : OrderRecord :=
  { market_slug := "mkt-c2", outcome := "Up", token_id := "tokC2", asset_symbol := "BTC",
    start_time := some 0, end_time := some 100, status := "submitted", created_at := 10,
    updated_at := some 10, total_notional := 6, total_size := 10, fee_paid := 1 / 10 }

/-- Counterexample to C2 as stated.  With the reference-price fetch
raising (modelled by `none`), `poll_status` does not leave the record
`submitted` for retry: in paper mode the record is settled as a loss
(`win = False`, no strategy feedback), its status becoming `settled`,
a terminal state. -/
theorem C2_settlement_failure_counterexample :
    (poll_record appCfg0 [] none 200 { cash := 20 } rC2).1.status = "settled" ∧
    (poll_record appCfg0 [] none 200 { cash := 20 } rC2).1.result = "lose" ∧
    (poll_record appCfg0 [] none 200 { cash := 20 } rC2).1.status ≠ "submitted" := by
  norm_num +decide [poll_record, paper_apply_settlement, alookup, rC2, appCfg0, stratCfg0]

/-- C2 (amended): an error while fetching the realized outcome does not
leave a past-expiry `submitted` record in place for retry.  `poll_status`
still marks it terminal: in paper mode (start time present) it settles the
record as a loss with `result = lose` and feeds nothing back to the
strategy; in live mode it marks the record `expired`.  In either mode the
status after the poll is no longer `submitted`. -/
theorem C2_settlement_failure_amended (cfg : AppConfig) (positions : List (String × ℚ))
    (now : ℚ) (paper : PaperStats) (r : OrderRecord) (e : ℚ)
    (hst : r.status = "submitted")
    (hend : r.end_time = some e) (hpast : e < now)
    (hpos : ¬(r.token_id ≠ "" ∧ 0 < (alookup r.token_id positions).getD 0)) :
    (cfg.mode = .paper → ∀ st, r.start_time = some st →
      (poll_record cfg positions none now paper r).1.status = "settled" ∧
      (poll_record cfg positions none now paper r).1.result = "lose" ∧
      (poll_record cfg positions none now paper r).2.2 = none) ∧
    (cfg.mode = .live →
      (poll_record cfg positions none now paper r).1.status = "expired" ∧
      (poll_record cfg positions none now paper r).2.2 = none) ∧
    (poll_record cfg positions none now paper r).1.status ≠ "submitted" := by
  refine ⟨?_, ?_, ?_⟩
  · intro hm st hstart
    simp [poll_record, hst, hend, hstart, hm, hpos, hpast]
  · intro hm
    cases hstart : r.start_time with
    | none => simp [poll_record, hst, hend, hstart, hm, hpos, hpast]
    | some st => simp [poll_record, hst, hend, hstart, hm, hpos, hpast]
  · cases hm : cfg.mode with
    | paper =>
      cases hstart : r.start_time with
      | none => simp [poll_record, hst, hend, hstart, hm, hpos, hpast]
      | some st => simp [poll_record, hst, hend, hstart, hm, hpos, hpast]
    | live =>
      cases hstart : r.start_time with
      | none => simp [poll_record, hst, hend, hstart, hm, hpos, hpast]
      | some st => simp [poll_record, hst, hend, hstart, hm, hpos, hpast]

/-- Live-mode configuration used by the C2 witness. -/
def cfgLiveBase : AppConfig := { appCfg0 with mode := .live }

/-- Witness for the amended C2: the concrete past-expiry submitted record
is settled as a loss in paper mode and expired in live mode when the
fetch fails — never left submitted. -/
theorem C2_settlement_failure_amended_witness :
    ((poll_record appCfg0 [] none 200 { cash := 20 } rC2).1.status = "settled" ∧
      (poll_record appCfg0 [] none 200 { cash := 20 } rC2).1.result = "lose" ∧
      (poll_record appCfg0 [] none 200 { cash := 20 } rC2).2.2 = none) ∧
    (poll_record cfgLiveBase [] none 200 { cash := 20 } rC2).1.status = "expired" := by
  have h1 := C2_settlement_failure_amended appCfg0 [] 200 { cash := 20 } rC2 100
    (by norm_num [rC2]) (by norm_num [rC2]) (by norm_num)
    (by norm_num +decide [rC2, alookup])
  have h2 := C2_settlement_failure_amended cfgLiveBase [] 200 { cash := 20 } rC2 100
    (by norm_num [rC2]) (by norm_num [rC2]) (by norm_num)
    (by norm_num +decide [rC2, alookup])
  exact ⟨h1.1 rfl 0 (by norm_num [rC2]), (h2.2.1 rfl).1⟩

/-- Filled record fixture for the C5 counterexample: past expiry, start
time present, `totalSize = 10`, `totalNotional = 6`, `feePaid = 0.1`. -/
def rC5f : OrderRecord :=
  { market_slug := "mkt-c5", outcome := "Up", token_id := "", asset_symbol := "BTC",
    start_time := some 0, end_time := some 100, status := "filled", created_at := 10,
    updated_at := some 10, total_notional := 6, total_size := 10, fee_paid := 1 / 10 }

/-- Counterexample to C5 as stated: the reconciler never settles a record
already marked `filled`.  `poll_status` only processes `submitted`
records, so this past-expiry filled order — exactly the spec's example
(`totalSize = 10`, `totalNotional = 6`, `feePaid = 0.1`, matching
outcome) — is returned unchanged: status still `filled`, no payout
applied to the ledger, no settlement. -/
theorem C5_settlement_payout_counterexample :
    poll_record appCfg0 [] (some (100, 102, 1 / 50)) 200 { cash := 20 } rC5f =
      (rC5f, { cash := 20 }, none) := by
  norm_num +decide [poll_record, rC5f, appCfg0, stratCfg0]

/-- C5 (amended): the settlement formula, for records the reconciler
actually settles — those with status `submitted` (a record already marked
`filled` is skipped by `poll_status` and never settled, see the
counterexample).  For a past-expiry submitted record with no detected
position and a successful outcome fetch: the actual outcome is the sign
of the realized change, a win is a match with the predicted outcome,
`payout = total_size` on a win and `0` otherwise,
`pnl = payout - total_notional - fee_paid - settlement_fee`, the result is
applied to the paper ledger via `_paper_apply_settlement` and the record
transitions to `settled` in paper mode; in live mode it transitions to
`expired`.  In both modes the win/lose outcome is fed back to the
strategy. -/
theorem C5_settlement_payout_amended (cfg : AppConfig) (positions : List (String × ℚ))
    (now open_p close_p chg : ℚ) (paper : PaperStats) (r : OrderRecord) (e st : ℚ)
    (hst : r.status = "submitted") (hstart : r.start_time = some st)
    (hend : r.end_time = some e) (hpast : e < now)
    (hpos : ¬(r.token_id ≠ "" ∧ 0 < (alookup r.token_id positions).getD 0)) :
    let actual := if 0 < chg then "Up" else "Down"
    let win : Bool := decide (actual = r.outcome)
    let payout : ℚ := if win then r.total_size else 0
    let pnl : ℚ := payout - r.total_notional - r.fee_paid - cfg.settlement_fee_usd
    let out := poll_record cfg positions (some (open_p, close_p, chg)) now paper r
    (cfg.mode = .paper →
      out.1.status = "settled" ∧
      out.1.result = (if win then "win" else "lose") ∧
      out.2.1 = paper_apply_settlement paper pnl payout win cfg.settlement_fee_usd ∧
      out.2.2 = some (r.asset_symbol, win)) ∧
    (cfg.mode = .live →
      out.1.status = "expired" ∧ out.1.updated_at = some now ∧
      out.2.1 = paper ∧ out.2.2 = some (r.asset_symbol, win)) := by
  constructor
  · intro hm
    simp [poll_record, hst, hend, hstart, hm, hpos, hpast]
  · intro hm
    simp [poll_record, hst, hend, hstart, hm, hpos, hpast]

/-- Paper configuration with a settlement fee of 1/2 for the C5 witness. -/
def cfg5 : AppConfig := { appCfg0 with settlement_fee_usd := 1 / 2 }

/-- Submitted record fixture for the C5 witness: the spec's example
figures (`totalSize = 10`, `totalNotional = 6`, `feePaid = 0.1`). -/
def rC5 : OrderRecord :=
  { market_slug := "mkt-c5", outcome := "Up", token_id := "", asset_symbol := "BTC",
    start_time := some 0, end_time := some 100, status := "submitted", created_at := 10,
    updated_at := some 10, total_notional := 6, total_size := 10, fee_paid := 1 / 10 }

/-- Witness for the amended C5: with a realized change of `+2%` matching
the predicted `Up`, the submitted example record settles with
`payout = 10` and `pnl = 10 - 6 - 0.1 - 0.5`, applied to the paper
ledger. -/
theorem C5_settlement_payout_amended_witness :
    (poll_record cfg5 [] (some (100, 102, 1 / 50)) 200 { cash := 20 } rC5).1.status =
      "settled" ∧
    (poll_record cfg5 [] (some (100, 102, 1 / 50)) 200 { cash := 20 } rC5).1.result =
      "win" ∧
    (poll_record cfg5 [] (some (100, 102, 1 / 50)) 200 { cash := 20 } rC5).2.1.cash =
      20 + 10 - 1 / 2 ∧
    (poll_record cfg5 [] (some (100, 102, 1 / 50)) 200 { cash := 20 } rC5).2.1.realized_pnl =
      10 - 6 - 1 / 10 - 1 / 2 := by
  have h := (C5_settlement_payout_amended cfg5 [] 200 100 102 (1 / 50) { cash := 20 } rC5
    100 0 (by norm_num [rC5]) (by norm_num [rC5]) (by norm_num [rC5]) (by norm_num)
    (by norm_num +decide [rC5, alookup])).1 rfl
  refine ⟨h.1, ?_, ?_, ?_⟩
  · rw [h.2.1]
    norm_num +decide [rC5]
  · rw [h.2.2.1]
    norm_num +decide [paper_apply_settlement, rC5, cfg5, appCfg0]
  · rw [h.2.2.1]
    norm_num +decide [paper_apply_settlement, rC5, cfg5, appCfg0]

/-- Looking up a key right after setting it returns the set value
(Python dict update semantics). -/
theorem alookup_aset_self {α β : Type} [DecidableEq α] (k : α) (v : β) :
    ∀ l : List (α × β), alookup k (aset k v l) = some v
  | [] => by simp [aset, alookup]
  | (k', v') :: rest => by
    by_cases h : k' = k
    · simp [aset, alookup, h]
    · simp [aset, alookup, h, alookup_aset_self k v rest]

/-- C4 (amended): in either mode, when the executor reports a non-success
result for a child that reached submission (the loop gates decided
`.go c`, `c` being the possibly clamped-and-resized child), the record is
set to status `error` with the failure message, `fee_paid`, the paper
ledger and the tracked live cash are all unchanged, and the loop
continues with the remaining children — but, contrary to the claim,
`total_notional` and `total_size` are still incremented by the failed
child's notional and size (the accrual at lines 772–773 of
`order_manager.py` is unconditional).  The cumulative totals already
accrued from earlier children are preserved inside the incremented
values. -/
theorem C4_submission_failure_amended (cfg : AppConfig) (exec : ℕ → ExecResp) (now : ℚ)
    (key : OrderKey) (child c : OrderRequest) (rest : List OrderRequest)
    (s : ManagerState) (idx : ℕ) (r : OrderRecord)
    (hgate : submit_gate cfg s now child = .go c)
    (hrec : alookup key s.orders = some r)
    (hfail : (exec idx).success = false) :
    (alookup key (apply_submission cfg key now c (mkResult c (exec idx)) s).orders =
      some { r with
        status := "error",
        last_error := (exec idx).message,
        order_ids := r.order_ids ++ oidList (exec idx).order_id,
        total_notional := r.total_notional + c.notional,
        total_size := r.total_size + c.size,
        updated_at := some now }) ∧
    (apply_submission cfg key now c (mkResult c (exec idx)) s).paper = s.paper ∧
    (apply_submission cfg key now c (mkResult c (exec idx)) s).live_cash_usd =
      s.live_cash_usd ∧
    (submit_children cfg exec now key (child :: rest) s idx).results =
      mkResult c (exec idx) ::
        (submit_children cfg exec now key rest
          (apply_submission cfg key now c (mkResult c (exec idx)) s) (idx + 1)).results := by
  refine ⟨?_, ?_, ?_, ?_⟩
  · simp only [apply_submission, mkResult, hfail, hrec]
    simp [alookup_aset_self, hrec, hfail]
  · simp [apply_submission, mkResult, hfail]
  · simp [apply_submission, mkResult, hfail]
  · simp only [submit_children, hgate]

/-- Order fixture for C4: notional 2, size 2, expiry at t = 100. -/
def oC4 : OrderRequest := ⟨"mkt-c4", "BTC", "Up", "tokC4", 1, 2, 2, 0, 100, "FOK"⟩

/-- Prior record for C4 with accrued totals 5 and fee 0.1. -/
def rC4 : OrderRecord :=
  { market_slug := "mkt-c4", outcome := "Up", token_id := "tokC4", asset_symbol := "BTC",
    start_time := some 0, end_time := some 100, status := "planned", created_at := 10,
    updated_at := some 10, total_notional := 5, total_size := 5, fee_paid := 1 / 10 }

/-- Live manager state for C4 holding the prior record, with headroom
available and zero tracked cash. -/
def sC4 : ManagerState := ⟨[(order_key oC4, rC4)], {}, 0, some 100, some 10, 0, []⟩

/-- Counterexample to C4 as stated: after a failing submission of a child
with notional 2 against a record with accrued `total_notional = 5`, the
record carries status `error` with the failure message — but
`total_notional` is 7, not the claimed unchanged 5: the failed child's
notional was added to the cumulative totals. -/
theorem C4_submission_failure_counterexample :
    alookup (order_key oC4) (submit_with_risk cfgL execFail 0 oC4 sC4).state.orders =
      some { rC4 with
        status := "error", last_error := "order rejected",
        total_notional := 7, total_size := 7, updated_at := some 0 } ∧
    (7 : ℚ) ≠ rC4.total_notional := by
  constructor
  · norm_num +decide [submit_with_risk, submit_children, submit_gate, apply_submission,
      planned_record, plan_children, plan_children_loop, child_with_notional,
      should_skip, order_key, alookup, aset, position_exposure, cleanupOrders,
      evictable, updatedAtVal, remaining_total_exposure_usd, max_total_exposure_usd,
      current_total_exposure_usd, open_orders_notional, live_open_orders_notional,
      paper_open_orders_count, live_max_notional, trade_fee_rate, paper_apply_buy,
      oidList, mkResult, execFail, cfgL, sC4, oC4, rC4, appCfg0, stratCfg0, min_def,
      max_def, abs_eval, List.filter_cons, List.filter_nil]
  · norm_num [rC4]

/-- Paper-mode manager state for the C4 witness: the prior record with
accrued totals under the key, cash 100. -/
def sC4P : ManagerState := ⟨[(order_key oC4, rC4)], { cash := 100 }, 0, none, none, 0, []⟩

/-- Witness for the amended C4, on a paper-mode failing submission (the
gate admits the child unresized): the record gets status `error` with the
message and the incremented totals, while `fee_paid`, the paper ledger
and the tracked live cash are untouched and the loop continues with the
remaining children. -/
theorem C4_submission_failure_amended_witness :
    (alookup (order_key oC4)
        (apply_submission cfgP (order_key oC4) 0 oC4 (mkResult oC4 (execFail 0)) sC4P).orders =
      some { rC4 with
        status := "error",
        last_error := (execFail 0).message,
        order_ids := rC4.order_ids ++ oidList (execFail 0).order_id,
        total_notional := rC4.total_notional + oC4.notional,
        total_size := rC4.total_size + oC4.size,
        updated_at := some 0 }) ∧
    (apply_submission cfgP (order_key oC4) 0 oC4 (mkResult oC4 (execFail 0)) sC4P).paper =
      sC4P.paper ∧
    (apply_submission cfgP (order_key oC4) 0 oC4 (mkResult oC4 (execFail 0)) sC4P).live_cash_usd =
      sC4P.live_cash_usd ∧
    (submit_children cfgP execFail 0 (order_key oC4) [oC4] sC4P 0).results =
      mkResult oC4 (execFail 0) ::
        (submit_children cfgP execFail 0 (order_key oC4) []
          (apply_submission cfgP (order_key oC4) 0 oC4 (mkResult oC4 (execFail 0)) sC4P) 1).results :=
  C4_submission_failure_amended cfgP execFail 0 (order_key oC4) oC4 oC4 [] sC4P 0 rC4
    (by norm_num +decide [submit_gate, remaining_total_exposure_usd, max_total_exposure_usd,
      current_total_exposure_usd, open_orders_notional, live_open_orders_notional,
      paper_open_orders_count, position_exposure, alookup, cfgP, sC4P, rC4, oC4, appCfg0,
      stratCfg0, min_def, max_def, abs_eval, List.filter_cons, List.filter_nil])
    (by simp [sC4P, alookup]) rfl

/-- A record that is not evictable is still found under its key after
cleanup. -/
theorem alookup_cleanup (now maxAge : ℚ) (k : OrderKey) (r : OrderRecord)
    (hev : evictable now maxAge r = false) :
    ∀ orders : List (OrderKey × OrderRecord), alookup k orders = some r →
      alookup k (cleanupOrders now maxAge orders) = some r := by
  intro orders
  induction orders with
  | nil => intro h; simp [alookup] at h
  | cons p rest ih =>
    rcases p with ⟨k', v'⟩
    intro h
    by_cases hk : k' = k
    · rw [show v' = r from by simpa [alookup, hk] using h] at *
      simp [cleanupOrders, List.filter_cons, hev, alookup, hk]
    · have h' : alookup k rest = some r := by simpa [alookup, hk] using h
      by_cases hv : evictable now maxAge v'
      · simpa [cleanupOrders, List.filter_cons, hv] using ih h'
      · have := ih h'
        simp only [cleanupOrders, List.filter_cons] at this ⊢
        simp [hv, alookup, hk, this]

/-- C6 (amended): the idempotent intent guard holds provided the stored
record survives the cleanup step that `submit_with_risk` runs first —
i.e. its `updated_at` is zero/absent or within `max_age_seconds` of now.
Then a record with status in `{submitted, filled, settled}` makes
`submit_with_risk` skip entirely: empty result list, no submission, no
new record (the store is only cleaned), and the record itself unchanged.
A stale record (nonzero `updated_at` older than the max age) is instead
evicted by the cleanup and a fresh `planned` record may then be created —
see the counterexample. -/
theorem C6_idempotent_guard_amended (cfg : AppConfig) (exec : ℕ → ExecResp) (now : ℚ)
    (o : OrderRequest) (s : ManagerState) (r : OrderRecord)
    (hrec : alookup (order_key o) s.orders = some r)
    (hstatus : r.status = "submitted" ∨ r.status = "filled" ∨ r.status = "settled")
    (hfresh : updatedAtVal r = 0 ∨ now - updatedAtVal r ≤ cfg.max_age_seconds) :
    (submit_with_risk cfg exec now o s).results = [] ∧
    (submit_with_risk cfg exec now o s).events = [] ∧
    (submit_with_risk cfg exec now o s).state.orders =
      cleanupOrders now cfg.max_age_seconds s.orders ∧
    alookup (order_key o) (submit_with_risk cfg exec now o s).state.orders = some r := by
  have hev : evictable now cfg.max_age_seconds r = false := by
    apply decide_eq_false
    rintro ⟨h1, h2⟩
    rcases hfresh with h | h
    · exact h1 h
    · exact absurd h2 (not_lt.mpr h)
  have hlook := alookup_cleanup now cfg.max_age_seconds (order_key o) r hev s.orders hrec
  have hskip : should_skip
      { s with orders := cleanupOrders now cfg.max_age_seconds s.orders } o = true := by
    simp only [should_skip, hlook]
    exact decide_eq_true hstatus
  have hrun : submit_with_risk cfg exec now o s =
      ⟨[], [], { s with orders := cleanupOrders now cfg.max_age_seconds s.orders }⟩ := by
    simp [submit_with_risk, hskip]
  rw [hrun]
  exact ⟨rfl, rfl, rfl, hlook⟩

/-- Order fixture for the C6 counterexample: expiry still in the future
at poll time. -/
def oC6 : OrderRequest := ⟨"mkt-c6", "BTC", "Up", "tokC6", 1, 3, 3, 0, 2000000, "FOK"⟩

/-- Stale submitted record for the C6 counterexample: `updated_at = 10`,
far older than the 48h max age at `now = 1000000`. -/
def rC6 : OrderRecord :=
  { market_slug := "mkt-c6", outcome := "Up", token_id := "tokC6", asset_symbol := "BTC",
    start_time := some 0, end_time := some 2000000, status := "submitted", created_at := 10,
    updated_at := some 10, total_notional := 5, total_size := 5, fee_paid := 1 / 10 }

/-- Manager state for the C6 counterexample. -/
def sC6 : ManagerState := ⟨[(order_key oC6, rC6)], { cash := 10 }, 0, none, none, 0, []⟩

/-- Counterexample to C6 as stated: a `submitted` record exists for the
key, yet `submit_with_risk` does not skip entirely — because the record's
`updated_at` is older than the state store's max age, the leading
`cleanup` evicts it, and the call creates a brand-new `planned` record
with zeroed totals for the same key, destroying the submitted one. -/
theorem C6_idempotent_guard_counterexample :
    rC6.status = "submitted" ∧
    alookup (order_key oC6) sC6.orders = some rC6 ∧
    alookup (order_key oC6) (submit_with_risk appCfg0 execOk 1000000 oC6 sC6).state.orders =
      some (planned_record oC6 1000000) ∧
    (planned_record oC6 1000000).status = "planned" ∧
    (planned_record oC6 1000000).total_notional = 0 ∧
    (planned_record oC6 1000000).total_notional ≠ rC6.total_notional := by
  refine ⟨rfl, by simp [sC6, alookup], ?_, rfl, rfl, by norm_num [planned_record, rC6]⟩
  norm_num +decide [submit_with_risk, submit_children, submit_gate, apply_submission,
    planned_record, plan_children, plan_children_loop, child_with_notional,
    should_skip, order_key, alookup, aset, position_exposure, cleanupOrders,
    evictable, updatedAtVal, remaining_total_exposure_usd, max_total_exposure_usd,
    current_total_exposure_usd, open_orders_notional, live_open_orders_notional,
    paper_open_orders_count, live_max_notional, trade_fee_rate,
    oidList, mkResult, execOk, sC6, oC6, rC6, appCfg0, stratCfg0, min_def, max_def,
    List.filter_cons, List.filter_nil]

/-- Witness for the amended C6: a fresh settled record makes the call a
complete no-op apart from cleanup. -/
theorem C6_idempotent_guard_amended_witness :
    (submit_with_risk appCfg0 execOk 200 oC3 sC3).results = [] ∧
    (submit_with_risk appCfg0 execOk 200 oC3 sC3).events = [] ∧
    (submit_with_risk appCfg0 execOk 200 oC3 sC3).state.orders =
      cleanupOrders 200 appCfg0.max_age_seconds sC3.orders ∧
    alookup (order_key oC3) (submit_with_risk appCfg0 execOk 200 oC3 sC3).state.orders =
      some rC3 :=
  C6_idempotent_guard_amended appCfg0 execOk 200 oC3 sC3 rC3
    (by simp [sC3, alookup]) (Or.inr (Or.inr rfl))
    (Or.inr (by norm_num [updatedAtVal, rC3, appCfg0]))

/-- The circuit-breaker test only reads the consecutive-loss counters. -/
theorem has_too_many_congr (s s' : StratState) (a : String)
    (h : s'.consecutive_losses = s.consecutive_losses) :
    has_too_many_losses s' a = has_too_many_losses s a := by
  simp [has_too_many_losses, h]

/-- If the post-breaker admission flag is on, the breaker was off. -/
theorem should_trade_flag_breaker (cfg : StrategyConfig) (s : StratState)
    (m : UpDownMarket) (change_pct vol : ℚ)
    (h : should_trade_flag cfg s m change_pct vol = true) :
    has_too_many_losses s m.asset_symbol = false := by
  cases hb : has_too_many_losses s m.asset_symbol with
  | false => rfl
  | true =>
    exfalso
    simp only [should_trade_flag, hb] at h
    by_cases hs : should_trade_signal cfg s m change_pct vol = true
    · rw [if_pos ⟨hs, trivial⟩] at h
      simp at h
    · rw [if_neg fun hc => hs hc.1] at h
      exact hs h

/-- Facts about an order emitted by the admission stage: it carries the
market's asset symbol, the state update leaves the consecutive-loss
counters untouched, and an emission implies the asset's circuit breaker
was off. -/
theorem admit_market_emit (cfg : StrategyConfig) (env : StratEnv) (s : StratState)
    (total : ℚ) (m : UpDownMarket) (close_price change_pct vol : ℚ) (o : OrderRequest)
    (s' : StratState) (total' : ℚ)
    (h : admit_market cfg env s total m close_price change_pct vol = .emit o s' total') :
    o.asset_symbol = m.asset_symbol ∧
    s'.consecutive_losses = s.consecutive_losses ∧
    has_too_many_losses s m.asset_symbol = false := by
  simp only [admit_market] at h
  repeat' split at h
  all_goals first
    | exact MarketStep.noConfusion h
    | (simp only [emit_order] at h
       injection h with h1 h2 h3
       subst h1
       subst h2
       refine ⟨rfl, rfl, ?_⟩
       exact should_trade_flag_breaker cfg s m change_pct vol
         (not_not.mp (by assumption)))

/-- Facts about an order emitted by the market loop: it carries the
market's asset symbol, the state update leaves the consecutive-loss
counters untouched, and an emission implies the asset's circuit breaker
was off when the market was evaluated. -/
theorem eval_market_emit (cfg : StrategyConfig) (env : StratEnv) (s : StratState)
    (total : ℚ) (m : UpDownMarket) (o : OrderRequest) (s' : StratState) (total' : ℚ)
    (h : eval_market cfg env s total m = .emit o s' total') :
    o.asset_symbol = m.asset_symbol ∧
    s'.consecutive_losses = s.consecutive_losses ∧
    has_too_many_losses s m.asset_symbol = false := by
  simp only [eval_market] at h
  repeat' split at h
  all_goals first
    | exact MarketStep.noConfusion h
    | exact admit_market_emit cfg env s total m _ _ _ o s' total' h

/-- With the circuit breaker tripped for an asset, the market loop emits
no order for that asset (and never touches the loss counters). -/
theorem generate_orders_loop_blocked (cfg : StrategyConfig) (env : StratEnv) (a : String) :
    ∀ (markets : List UpDownMarket) (s : StratState) (total : ℚ),
      has_too_many_losses s a = true →
      ((generate_orders_loop cfg env markets s total).1.filter
        fun o => o.asset_symbol == a) = [] := by
  intro markets
  induction markets with
  | nil => intro s total hbl; simp [generate_orders_loop]
  | cons m rest ih =>
    intro s total hbl
    cases he : eval_market cfg env s total m with
    | skip =>
      simp only [generate_orders_loop, he]
      exact ih s total hbl
    | stop => simp [generate_orders_loop, he]
    | emit o s' total' =>
      obtain ⟨hasset, hcl, hoff⟩ := eval_market_emit cfg env s total m o s' total' he
      have hne : (o.asset_symbol == a) = false := by
        rw [hasset]
        by_cases hma : m.asset_symbol = a
        · rw [hma] at hoff
          rw [hoff] at hbl
          exact absurd hbl (by simp)
        · exact beq_eq_false_iff_ne.mpr hma
      simp only [generate_orders_loop, he, List.filter_cons, hne, Bool.false_eq_true,
        if_false]
      exact ih s' total' (by rw [has_too_many_congr s s' a hcl]; exact hbl)

/-- C9: consecutive-loss circuit breaker.  Recording three consecutive
losing settlements for an asset (no intervening win) trips the breaker:
`_has_too_many_losses` becomes true, and while it is true
`generate_orders` emits zero intents for that asset, whatever the
markets, prices and thresholds; recording one win resets the per-asset
counter to zero, turning the breaker off and re-enabling admission. -/
theorem C9_circuit_breaker (s : StratState) (a : String) :
    (has_too_many_losses
      (update_trade_result (update_trade_result (update_trade_result s a false) a false)
        a false) a = true) ∧
    (∀ s' : StratState, has_too_many_losses s' a = true →
      ∀ (cfg : StrategyConfig) (env : StratEnv) (markets : List UpDownMarket),
        ((generate_orders cfg env markets s').1.filter
          fun o => o.asset_symbol == a) = []) ∧
    (alookup a (update_trade_result s a true).consecutive_losses = some 0 ∧
      has_too_many_losses (update_trade_result s a true) a = false) := by
  refine ⟨?_, ?_, ?_, ?_⟩
  · simp [update_trade_result, has_too_many_losses, alookup_aset_self]
  · intro s' hbl cfg env markets
    exact generate_orders_loop_blocked cfg env a markets s' 0 hbl
  · simp [update_trade_result, alookup_aset_self]
  · simp [update_trade_result, has_too_many_losses, alookup_aset_self]

/-- Strategy state with the BTC circuit breaker tripped (3 recorded
consecutive losses). -/
def sW : StratState := ⟨[], [], [], [("BTC", 3)], []⟩

/-- Market fixture for the C9 witness. -/
def mW : UpDownMarket := ⟨"btc-up-down", "BTC", 0, 3600, ["Up", "Down"], ["t1", "t2"]⟩

/-- Environment fixture for the C9 witness: the fetch reports a +1% move
with zero volatility and the book offers an ask of 0.5. -/
def envW : StratEnv :=
  ⟨60, fun _ => true, fun _ _ => some (100, 101, 1 / 100, 0), fun _ => some (1 / 2)⟩

/-- Witness for C9: with three consecutive BTC losses recorded, the
evaluator emits no intent for BTC even on an otherwise admissible
market. -/
theorem C9_circuit_breaker_witness :
    ((generate_orders stratCfg0 envW [mW] sW).1.filter
      fun o => o.asset_symbol == "BTC") = [] :=
  (C9_circuit_breaker sW "BTC").2.1 sW
    (by simp [has_too_many_losses, alookup, sW]) stratCfg0 envW [mW]

/-- The spec's volatility example: 1-minute closes `[100, 101, 99, 100]`
(open values equal to closes; only closes enter the computation). -/
def exKlines : List Kline := [⟨100, 100⟩, ⟨101, 101⟩, ⟨99, 99⟩, ⟨100, 100⟩]

/-- Mean of the example's three log-returns. -/
noncomputable def exMean : ℝ :=
  (Real.log (101 / 100) + Real.log (99 / 101) + Real.log (100 / 99)) / 3

/-- Hand-computed reference value for the example: the Bessel-corrected
(n − 1 = 2) sample standard deviation of the three log-returns. -/
noncomputable def exStdev : ℝ :=
  Real.sqrt (((Real.log (101 / 100) - exMean) ^ 2 + (Real.log (99 / 101) - exMean) ^ 2 +
    (Real.log (100 / 99) - exMean) ^ 2) / 2)

/-- C8: realized-return and volatility computation.  On a non-empty
1-minute kline window, `get_open_close_change_and_volatility` returns the
first sample's open, the last sample's close,
`changePct = (close - open) / open`, and the volatility
`_stdev_minute_log_returns`; the volatility is `0` for fewer than 3
samples and `0` for fewer than 2 computable log-returns; and on the
closes `[100, 101, 99, 100]` the log-returns are
`[ln 1.01, ln (99/101), ln (100/99)]` and the standard deviation equals
the hand-computed Bessel-corrected reference value. -/
theorem C8_realized_return_and_volatility :
    (∀ (d : Kline) (rest : List Kline),
      get_open_close_change_and_volatility (d :: rest) =
        some (d.openPrice, (rest.getLastD d).closePrice,
          ((rest.getLastD d).closePrice - d.openPrice) / d.openPrice,
          stdev_minute_log_returns (d :: rest))) ∧
    (∀ data : List Kline, data.length < 3 → stdev_minute_log_returns data = 0) ∧
    (∀ data : List Kline, (minute_log_returns data).length < 2 →
      stdev_minute_log_returns data = 0) ∧
    (minute_log_returns exKlines =
      [Real.log (101 / 100), Real.log (99 / 101), Real.log (100 / 99)]) ∧
    (stdev_minute_log_returns exKlines = exStdev) := by
  have hret : minute_log_returns exKlines =
      [Real.log (101 / 100), Real.log (99 / 101), Real.log (100 / 99)] := by
    norm_num [minute_log_returns, log_returns_from, exKlines]
  refine ⟨fun d rest => rfl, ?_, ?_, hret, ?_⟩
  · intro data h
    simp [stdev_minute_log_returns, h]
  · intro data h
    by_cases h3 : data.length < 3
    · simp [stdev_minute_log_returns, h3]
    · simp [stdev_minute_log_returns, h3, h]
  · have h1 : ¬(exKlines.length < 3) := by norm_num [exKlines]
    simp only [stdev_minute_log_returns, hret]
    rw [if_neg h1, if_neg (by norm_num : ¬(([Real.log (101 / 100), Real.log (99 / 101),
      Real.log (100 / 99)] : List ℝ).length < 2))]
    simp only [List.map_cons, List.map_nil, List.sum_cons, List.sum_nil, List.length_cons,
      List.length_nil, exStdev, exMean]
    congr 1
    push_cast
    ring

/-- Witness for C8: a two-sample window yields volatility 0, and on the
example window the collaborator returns open 100, close 100, change 0,
and the window's standard deviation. -/
theorem C8_realized_return_and_volatility_witness :
    stdev_minute_log_returns [⟨100, 100⟩, ⟨101, 101⟩] = 0 ∧
    get_open_close_change_and_volatility exKlines =
      some (100, 100, 0, stdev_minute_log_returns exKlines) := by
  constructor
  · exact C8_realized_return_and_volatility.2.1 [⟨100, 100⟩, ⟨101, 101⟩] (by norm_num)
  · have h := C8_realized_return_and_volatility.1 (⟨100, 100⟩ : Kline)
      [⟨101, 101⟩, ⟨99, 99⟩, ⟨100, 100⟩]
    rw [show exKlines = (⟨100, 100⟩ : Kline) :: [⟨101, 101⟩, ⟨99, 99⟩, ⟨100, 100⟩] from rfl]
    rw [h]
    norm_num [List.getLastD]
